import Mathlib

/-!
# Verification of the ReactionSpace spatial layout engine

Shallow embedding of the projection algorithm
(`backend/app/services/umap_service.py`, `UMAPService.compute_2d_positions`),
the insert-path critical section (`backend/app/api/upload.py`, `upload_media`),
and the full-recompute operation (`backend/app/api/items.py`,
`recompute_positions`), together with theorems settling the specification
claims about them.

Exact rational arithmetic stands in for floating point.  To let every
theorem be checked by kernel evaluation, rationals are implemented here as a
small canonical-fraction type `Q` (numerator, positive denominator, lowest
terms) whose operations reduce in the kernel.  Floating-point values are
then modelled by `F`: a finite `Q` or `nan` (a non-finite value).  NumPy's
quiet-NaN semantics are reproduced: arithmetic propagates `nan`, and every
ordered comparison involving `nan` is false.

The UMAP reducer (the external `umap` library) is modelled as an oracle
parameter `reduce`; `none` models `fit_transform` raising an exception,
`some rows` a successful return of one 2-D row per sample.  The draws of
NumPy's *global* random generator — used by `np.random.randn` in the jitter
branch, which is NOT governed by the `random_state=42` seed passed to the
`UMAP` constructor — are modelled as a stream parameter `randn`, one pair of
gaussian draws per output row.
-/

namespace ReactionSpace

/-- An exact rational in canonical form: `den` is positive and
`gcd (natAbs num) den = 1` for every value built by the smart constructor
`Q.mk'` (the invariant is maintained by construction, not enforced by a
proof field, so that equality of values is plain structural equality and
every operation reduces in the kernel). -/
structure Q where
  num : ℤ
  den : ℕ
  deriving DecidableEq, Repr

/-- Build the canonical fraction `n / d` (callers guarantee `d ≠ 0`;
division by zero is filtered out before this constructor is reached). -/
def Q.mk' (n d : ℤ) : Q :=
  let n' := if d < 0 then -n else n
  let d' := (if d < 0 then -d else d).toNat
  let g := n'.natAbs.gcd d'
  ⟨n' / (g : ℤ), d' / g⟩

/-- Embed an integer. -/
def Q.ofInt (n : ℤ) : Q := ⟨n, 1⟩

def Q.add (a b : Q) : Q := Q.mk' (a.num * b.den + b.num * a.den) ((a.den : ℤ) * b.den)

def Q.sub (a b : Q) : Q := Q.mk' (a.num * b.den - b.num * a.den) ((a.den : ℤ) * b.den)

def Q.mul (a b : Q) : Q := Q.mk' (a.num * b.num) ((a.den : ℤ) * b.den)

/-- Division; callers guarantee `b ≠ 0`. -/
def Q.div (a b : Q) : Q := Q.mk' (a.num * b.den) (b.num * a.den)

/-- Strict order by cross-multiplication (denominators are positive). -/
def Q.blt (a b : Q) : Bool := a.num * b.den < b.num * a.den

/-- Integer square root by linear search: the largest `k ≤ n` with
`k*k ≤ n`.  Chosen for kernel reducibility; only ever applied to the small
radicands arising in concrete witnesses. -/
def isqrt (n : ℕ) : ℕ := ((List.range (n + 1)).filter (fun k => k * k ≤ n)).foldl max 0

/-- Rational approximation of the square root of a non-negative canonical
fraction: `sqrt (n/d) = sqrt (n*d) / d`, with the integer square root on the
radicand.  The real square root is irrational in general; no theorem below
depends on the value of `sqrtApprox` beyond `sqrtApprox 0 = 0` and
non-negativity. -/
def Q.sqrtApprox (q : Q) : Q := Q.mk' (isqrt (q.num.toNat * q.den) : ℤ) (q.den : ℤ)

/-- A Python/NumPy float: either a finite rational value or `nan`
(standing for any non-finite value).  `float('inf')` does not arise on the
code paths modelled here, so a single non-finite element suffices. -/
inductive F where
  | nan : F
  | fin (q : Q) : F
  deriving DecidableEq, Repr

namespace F

/-- Shorthand for a finite integer-valued float. -/
def int (n : ℤ) : F := fin (Q.ofInt n)

/-- NaN-propagating addition. -/
def add : F → F → F
  | fin a, fin b => fin (a.add b)
  | _, _ => nan

/-- NaN-propagating subtraction. -/
def sub : F → F → F
  | fin a, fin b => fin (a.sub b)
  | _, _ => nan

/-- NaN-propagating multiplication. -/
def mul : F → F → F
  | fin a, fin b => fin (a.mul b)
  | _, _ => nan

/-- NaN-propagating division.  Division by zero yields `nan`; on the code
paths modelled here the only zero divisor arises for `np.mean` of an empty
list (`0/0`, which NumPy also turns into `nan`): the rescale divisor
`std + 1e-8` is positive whenever it is finite. -/
def div : F → F → F
  | fin a, fin b => if b.num = 0 then nan else fin (a.div b)
  | _, _ => nan

/-- NumPy ordered comparison: any comparison with `nan` is false. -/
def lt : F → F → Bool
  | fin a, fin b => a.blt b
  | _, _ => false

/-- Whether the value is non-finite. -/
def isNaN : F → Bool
  | nan => true
  | fin _ => false

/-- Model of `np.sqrt`: `nan` on `nan` and on negative values, otherwise the rational
square-root approximation. -/
def sqrt : F → F
  | nan => nan
  | fin q => if q.num < 0 then nan else fin q.sqrtApprox

end F

/-- Model of `np.sum` over a list of floats (NaN-propagating). -/
def fsum (l : List F) : F := l.foldl F.add (F.int 0)

/-- Model of `np.mean` over a list of floats: sum divided by length.  For the empty
list this is `0/0 = nan`, matching NumPy's "mean of empty slice" result. -/
def fmean (l : List F) : F := (fsum l).div (F.int (l.length : ℤ))

/-- Model of `np.std` (population standard deviation, `ddof=0`): the square root of
the mean squared deviation from the mean. -/
def fstd (l : List F) : F :=
  F.sqrt (fmean (l.map (fun x => (x.sub (fmean l)).mul (x.sub (fmean l)))))

/-- Structurally recursive indexed map (kernel-reducible replacement for
`List.mapIdx`): `enumMap f i [x₀, x₁, …] = [f i x₀, f (i+1) x₁, …]`. -/
def enumMap (f : ℕ → α → β) : ℕ → List α → List β
  | _, [] => []
  | i, x :: xs => f i x :: enumMap f (i + 1) xs

/-- A JSON-ish Python value, as returned for the `vector` field by
`get_all_embeddings` (embeddings are stored as JSON in Supabase, so a stored
"vector" can in principle be any JSON value). -/
inductive PyVal where
  | num (q : Q) : PyVal
  | list (l : List PyVal) : PyVal
  | null : PyVal
  deriving Repr

/-- Model of `isinstance(emb, list)`. -/
def PyVal.isList : PyVal → Bool
  | .list _ => true
  | _ => false

/-- Model of `len(emb)` for a Python list (only ever applied after `isList`). -/
def PyVal.pyLen : PyVal → ℕ
  | .list l => l.length
  | _ => 0

/-- Constant `settings.UMAP_N_NEIGHBORS` (backend/app/core/config.py, line 33). -/
def UMAP_N_NEIGHBORS : ℕ := 15

/-- Rational approximation of `2 * np.pi`.  No theorem below depends on its
value. -/
def twoPi : Q := Q.mk' 6283185307179586 1000000000000000

/-- Truncated Taylor polynomial for cosine (terms through `x^12`), a
computable rational stand-in for the transcendental `np.cos`.  No theorem
below depends on its values beyond `cosQ 0 = 1`. -/
def cosQ (x : Q) : Q :=
  let x2 := x.mul x
  let x4 := x2.mul x2
  let x6 := x4.mul x2
  let x8 := x4.mul x4
  let x10 := x8.mul x2
  let x12 := x8.mul x4
  let t1 := (Q.ofInt 1).sub (x2.div (Q.ofInt 2))
  let t2 := t1.add (x4.div (Q.ofInt 24))
  let t3 := t2.sub (x6.div (Q.ofInt 720))
  let t4 := t3.add (x8.div (Q.ofInt 40320))
  let t5 := t4.sub (x10.div (Q.ofInt 3628800))
  t5.add (x12.div (Q.ofInt 479001600))

/-- Truncated Taylor polynomial for sine (terms through `x^13`), a
computable rational stand-in for the transcendental `np.sin`.  No theorem
below depends on its values beyond `sinQ 0 = 0`. -/
def sinQ (x : Q) : Q :=
  let x2 := x.mul x
  let x3 := x2.mul x
  let x5 := x3.mul x2
  let x7 := x5.mul x2
  let x9 := x7.mul x2
  let x11 := x9.mul x2
  let x13 := x11.mul x2
  let t1 := x.sub (x3.div (Q.ofInt 6))
  let t2 := t1.add (x5.div (Q.ofInt 120))
  let t3 := t2.sub (x7.div (Q.ofInt 5040))
  let t4 := t3.add (x9.div (Q.ofInt 362880))
  let t5 := t4.sub (x11.div (Q.ofInt 39916800))
  t5.add (x13.div (Q.ofInt 6227020800))

/-- The `except` fallback of `compute_2d_positions`:
`np.linspace(0, 2*np.pi, n, endpoint=False)` produces the angles `i*2π/n`
for `i = 0 .. n-1`, and each point is `(600*cos a, 600*sin a)` with
`radius = 600`. -/
def circleFallback (n : ℕ) : List (F × F) :=
  (List.range n).map (fun (i : ℕ) =>
    (F.fin ((Q.ofInt 600).mul (cosQ ((twoPi.mul (Q.ofInt (i : ℤ))).div (Q.ofInt (n : ℤ))))),
     F.fin ((Q.ofInt 600).mul (sinQ ((twoPi.mul (Q.ofInt (i : ℤ))).div (Q.ofInt (n : ℤ)))))))

/-- The type of the reducer oracle modelling
`UMAP(n_neighbors, min_dist=0.1, n_components=2, metric="cosine",
random_state=42).fit_transform`: it receives the computed `n_neighbors` and
the raw embedding list; `none` models `fit_transform` raising, `some rows` a
successful return of one 2-D row per input sample (the library guarantees
`rows.length = input.length`, which theorems take as a hypothesis where they
need it). -/
def Reducer : Type := ℕ → List PyVal → Option (List (F × F))

/-- Constant `1e-6`, the collapse threshold of the jitter test. -/
def eps6 : F := F.fin (Q.mk' 1 1000000)

/-- Constant `1e-8`, the denominator guard of the rescale step. -/
def eps8 : F := F.fin (Q.mk' 1 100000000)

/-- Function `UMAPService.compute_2d_positions`
(backend/app/services/umap_service.py, lines 9-64), translated line by line:

* `len < 2` → `[(0.0, 0.0)]` for a single input, `[]` for none;
* `len == 2` → the fixed pair `[(-500.0, 0.0), (500.0, 0.0)]`;
* otherwise `n_neighbors = min(max(2, len(embeddings) - 1),
  settings.UMAP_N_NEIGHBORS)` and the reducer runs inside `try`:
  - on an exception (`reduce … = none`) the circle fallback is returned;
  - on success the per-axis standard deviations are taken;
    `np.any(std < 1e-6)` (false for a NaN std, as in NumPy) selects the
    jitter branch `embedding_2d + np.random.randn(*shape) * 200` (drawn
    from the unseeded global RNG, one pair per row); otherwise
    (`std.size > 0` always holds: the array has two columns) each axis is
    recentred and rescaled by `(v - mean) / (std + 1e-8) * 1000`.

The post-processing itself raises no exception, so the `except` clause is
reached exactly when the reducer raises. -/
def compute_2d_positions (reduce : Reducer) (randn : ℕ → F × F)
    (embeddings : List PyVal) : List (F × F) :=
  if embeddings.length < 2 then
    if embeddings.length = 1 then [(F.int 0, F.int 0)] else []
  else if embeddings.length = 2 then
    [(F.int (-500), F.int 0), (F.int 500, F.int 0)]
  else
    match reduce (min (max 2 (embeddings.length - 1)) UMAP_N_NEIGHBORS) embeddings with
    | none => circleFallback embeddings.length
    | some emb2d =>
      let stdx := fstd (emb2d.map Prod.fst)
      let stdy := fstd (emb2d.map Prod.snd)
      if stdx.lt eps6 || stdy.lt eps6 then
        enumMap (fun i p =>
          (F.add p.1 ((randn i).1.mul (F.int 200)),
           F.add p.2 ((randn i).2.mul (F.int 200)))) 0 emb2d
      else
        let mx := fmean (emb2d.map Prod.fst)
        let my := fmean (emb2d.map Prod.snd)
        emb2d.map (fun p =>
          (((p.1.sub mx).div (stdx.add eps8)).mul (F.int 1000),
           ((p.2.sub my).div (stdy.add eps8)).mul (F.int 1000)))

/-- Filter test of the insert path
(backend/app/api/upload.py, line 293):
`isinstance(emb, list) and len(emb) == expected_dim`.  Note that only the
outer type and the outer length are inspected; the elements are not. -/
def isValidEmb (expectedDim : ℕ) (e : PyVal) : Bool :=
  e.isList && (e.pyLen == expectedDim)

/-- Modelled from the spec (§4.2 step 2): the specification's drop
condition keeps a stored vector only when it is a *flat numeric* sequence of
the expected dimension ("dropping any stored vector whose dimension differs
or whose shape is not a flat numeric sequence").  This spec-side predicate
exists to be compared with the code's `isValidEmb` filter. -/
def specFlatNumericOfDim (expectedDim : ℕ) : PyVal → Bool
  | .list l => (l.length == expectedDim) && l.all (fun e => match e with | .num _ => true | _ => false)
  | _ => false

/-- Result of the pure computation inside the insert critical section. -/
structure InsertProjection where
  projInput : List PyVal
  positions : List (F × F)
  persisted : Option (F × F)
  deriving Repr

/-- The pure core of the insert critical section
(backend/app/api/upload.py, lines 284-326): filter the snapshot of stored
vectors by `isValidEmb expected_dim`, append the new embedding
(`valid_embeddings.append(embedding)`), run `compute_2d_positions`, and take
`positions[-1]` as the new item's `(x, y)`.  `persisted` is `none` exactly
when `positions` is empty (Python would raise `IndexError` there; that this
never happens is a separate claim). -/
def insertCritical (reduce : Reducer) (randn : ℕ → F × F)
    (stored : List PyVal) (newEmb : List Q) : InsertProjection :=
  let validEmbeddings :=
    stored.filter (isValidEmb newEmb.length) ++ [PyVal.list (newEmb.map PyVal.num)]
  let positions := compute_2d_positions reduce randn validEmbeddings
  { projInput := validEmbeddings
    positions := positions
    persisted := positions.getLast? }

/-- The persistent state touched by an insert: the storage bucket objects
(named by numbers standing for the generated file names), the item rows
(id, persisted canvas position), and the embedding rows (item id, vector).
Item ids are modelled as the row count at creation time. -/
structure Store where
  files : List ℕ
  items : List (ℕ × (F × F))
  embeddings : List (ℕ × PyVal)
  deriving Repr

/-- Outcome of one `upload_media` request: the created item's id, or the
HTTP 500 error raised by the final `except` handler. -/
inductive UploadOutcome where
  | ok (itemId : ℕ)
  | error
  deriving DecidableEq, Repr

/-- Result of one `upload_media` request: outcome plus the store state it
leaves behind. -/
structure UploadResult where
  outcome : UploadOutcome
  store : Store
  deriving Repr

/-- Store effects of `upload_media` (backend/app/api/upload.py) from the
storage upload onwards, with the fallibility of each store operation exposed
as a flag (`true` = that operation raises):

* `fUpload`: `supabase_service.upload_file` raises; the `except` handler
  finds no `file_url` bound, cleans nothing, re-raises as HTTP 500.
* otherwise the file is uploaded, then inside the `upload_lock` critical
  section the snapshot `get_all_embeddings` is read (only the `vector`
  column feeds the filter), `insertCritical` runs, and `positions[-1]`
  becomes the new item's `(x, y)`;
* `fCreate`: `supabase_service.create_item` raises; the handler removes the
  uploaded storage file (lines 353-369) and re-raises — no row persisted.
* `fEmbed`: `supabase_service.store_embedding` raises *after* the item row
  was inserted; the handler again removes only the storage file — the item
  row (with its position) is not rolled back.
* no failure: the item row and the embedding row are appended.

The GIF-preview upload is elided (its failures are swallowed by the code and
never reach the store operations modelled here). -/
def uploadFlow (reduce : Reducer) (randn : ℕ → F × F)
    (fUpload fCreate fEmbed : Bool) (s : Store) (newEmb : List Q)
    (fileName : ℕ) : UploadResult :=
  if fUpload then { outcome := .error, store := s }
  else
    let s1 : Store := { s with files := s.files ++ [fileName] }
    let proj := insertCritical reduce randn (s1.embeddings.map Prod.snd) newEmb
    match proj.persisted with
    | none =>
      { outcome := .error
        store := { s1 with files := s1.files.filter (fun f => f ≠ fileName) } }
    | some pos =>
      if fCreate then
        { outcome := .error
          store := { s1 with files := s1.files.filter (fun f => f ≠ fileName) } }
      else
        let newId := s1.items.length
        let s2 : Store := { s1 with items := s1.items ++ [(newId, pos)] }
        if fEmbed then
          { outcome := .error
            store := { s2 with files := s2.files.filter (fun f => f ≠ fileName) } }
        else
          { outcome := .ok newId
            store := { s2 with
              embeddings := s2.embeddings ++ [(newId, PyVal.list (newEmb.map PyVal.num))] } }

/-- Return value of `recompute_positions`: the code answers with the message
"Not enough items to compute positions" (and performs no update) when fewer
than 2 embeddings exist, and with "Recomputed positions for {K} items"
otherwise. -/
inductive RecomputeOutcome where
  | notEnough
  | recomputed (n : ℕ)
  deriving DecidableEq, Repr

/-- Function `recompute_positions` (backend/app/api/items.py, lines
225-255): fetch all (item id, vector) pairs, bail out below 2 items, else
run `compute_2d_positions` on all vectors (no dimension filtering on this
path) and update each item's position via `zip(item_ids, positions)`.
Returns the outcome together with the list of performed position updates. -/
def recompute_positions (reduce : Reducer) (randn : ℕ → F × F)
    (embData : List (ℕ × PyVal)) : RecomputeOutcome × List (ℕ × (F × F)) :=
  if embData.length < 2 then (.notEnough, [])
  else
    let vectors := embData.map Prod.snd
    let itemIds := embData.map Prod.fst
    let positions := compute_2d_positions reduce randn vectors
    (.recomputed itemIds.length, itemIds.zip positions)

/-- Atomic events of the two layout-mutating request handlers, as they
appear in the source.  `acquire`/`release` are entry and exit of the global
`upload_lock` (backend/app/api/upload.py, line 25); the remaining events are
the store operations of the respective handler. -/
inductive Ev where
  | acquire
  | release
  | getAllEmbeddings
  | createItem
  | storeEmbedding
  | updateItem (k : ℕ)
  deriving DecidableEq, Repr

/-- Event sequence of one insert request (backend/app/api/upload.py, lines
283-331): `async with upload_lock` wraps snapshot read, item creation and
embedding persistence. -/
def insertEvents : List Ev :=
  [.acquire, .getAllEmbeddings, .createItem, .storeEmbedding, .release]

/-- Event sequence of one `recompute_positions` request with `k` items
(backend/app/api/items.py, lines 225-255): snapshot read followed by one
`update_item` per item.  The handler contains no `async with upload_lock`,
so no lock events occur. -/
def recomputeEvents (k : ℕ) : List Ev :=
  .getAllEmbeddings :: (List.range k).map .updateItem

/-- All interleavings of two event sequences, each event tagged with the
originating operation (`false` = first, `true` = second).  Fuelled for
structural recursion; `schedules` supplies enough fuel. -/
def interleavingsAux : ℕ → List Ev → List Ev → List (List (Bool × Ev))
  | 0, _, _ => []
  | _ + 1, [], ys => [ys.map (fun e => (true, e))]
  | _ + 1, x :: xs, [] => ((x :: xs).map (fun e => (false, e))) :: []
  | n + 1, x :: xs, y :: ys =>
    ((interleavingsAux n xs (y :: ys)).map (fun t => (false, x) :: t)) ++
    ((interleavingsAux n (x :: xs) ys).map (fun t => (true, y) :: t))

/-- All tagged interleavings of two concurrent operations. -/
def schedules (a b : List Ev) : List (List (Bool × Ev)) :=
  interleavingsAux (a.length + b.length) a b

/-- Lock discipline of `asyncio.Lock`: a trace is admissible iff no
operation performs `acquire` while the other holds the lock (a coroutine
reaching `acquire` then simply waits, so such a trace cannot occur), and
`release` is performed by the holder. -/
def lockOk : Option Bool → List (Bool × Ev) → Bool
  | _, [] => true
  | owner, (tag, e) :: t =>
    match e, owner with
    | .acquire, none => lockOk (some tag) t
    | .acquire, some _ => false
    | .release, some o => if o == tag then lockOk none t else false
    | .release, none => false
    | _, _ => lockOk owner t

/-- Whether an event belongs to the snapshot-through-persistence span (the
"critical section" of the specification: every store operation of the
handler). -/
def isStoreEv : Ev → Bool
  | .getAllEmbeddings => true
  | .createItem => true
  | .storeEmbedding => true
  | .updateItem _ => true
  | _ => false

/-- Whether a tag sequence switches between the two operations at most once
(i.e. the two operations' events do not interleave). -/
def atMostOneSwitch : List Bool → Bool
  | [] => true
  | b :: t => go b t
where
  go (b : Bool) : List Bool → Bool
    | [] => true
    | c :: t => if c == b then go b t else t.all (fun d => d == c)

/-- A trace keeps the two operations' snapshot-through-persistence spans
separated iff, restricted to store events, all events of one operation
precede all events of the other. -/
def spansSeparated (t : List (Bool × Ev)) : Bool :=
  atMostOneSwitch ((t.filter (fun p => isStoreEv p.2)).map Prod.fst)

/-- Whether `compute_2d_positions` reaches the jitter branch on this input:
at least three embeddings, a successful reduction, and a per-axis standard
deviation below `1e-6` on some axis.  Only on this branch does the global
RNG influence the result. -/
def jitterBranch (reduce : Reducer) (embeddings : List PyVal) : Bool :=
  if embeddings.length < 2 then false
  else if embeddings.length = 2 then false
  else
    match reduce (min (max 2 (embeddings.length - 1)) UMAP_N_NEIGHBORS) embeddings with
    | none => false
    | some emb2d =>
      (fstd (emb2d.map Prod.fst)).lt eps6 || (fstd (emb2d.map Prod.snd)).lt eps6

/-! ## Concrete fixtures for counterexamples and witnesses -/

/-- Three identical 3-dimensional embedding vectors (the spec's
all-identical-input scenario). -/
def emb3 : List PyVal :=
  [PyVal.list [PyVal.num (Q.ofInt 1), PyVal.num (Q.ofInt 0), PyVal.num (Q.ofInt 0)],
   PyVal.list [PyVal.num (Q.ofInt 1), PyVal.num (Q.ofInt 0), PyVal.num (Q.ofInt 0)],
   PyVal.list [PyVal.num (Q.ofInt 1), PyVal.num (Q.ofInt 0), PyVal.num (Q.ofInt 0)]]

/-- Reducer oracle that always raises (models a UMAP failure). -/
def reduceNone : Reducer := fun _ _ => none

/-- Reducer oracle that collapses every sample to the origin — the
documented behaviour of UMAP on all-identical inputs, which is what the
jitter branch exists for. -/
def reduceCollapse : Reducer := fun _ l => some (l.map (fun _ => (F.int 0, F.int 0)))

/-- Rows returned by `reduceNaN`: the first x-coordinate is non-finite, the
y-axis is collapsed. -/
def nanRows : List (F × F) :=
  [(F.nan, F.int 0), (F.int 0, F.int 0), (F.int 0, F.int 0)]

/-- Reducer oracle producing a non-finite coordinate (models UMAP emitting
NaN without raising). -/
def reduceNaN : Reducer := fun _ _ => some nanRows

/-- Reducer oracle with a well-spread successful output for three samples. -/
def reduceOk : Reducer := fun _ _ =>
  some [(F.int 1, F.int 2), (F.int 3, F.int 4), (F.int 5, F.int 7)]

/-- A global-RNG draw stream: all zeros. -/
def randn0 : ℕ → F × F := fun _ => (F.int 0, F.int 0)

/-- A different global-RNG draw stream: all ones (the state of the unseeded
generator after it has advanced). -/
def randn1 : ℕ → F × F := fun _ => (F.int 1, F.int 1)

/-- A stored vector that is a list of the expected outer length 2 but not a
flat numeric sequence (its entries are themselves lists). -/
def nestedVec : PyVal := PyVal.list [PyVal.list [PyVal.num (Q.ofInt 1)], PyVal.list [PyVal.num (Q.ofInt 2)]]

/-- An empty store. -/
def emptyStore : Store := { files := [], items := [], embeddings := [] }

/-- A concrete valid interleaving of one insert (tag `false`) and one
recompute over one item (tag `true`) in which the recompute's snapshot read
falls strictly inside the insert's critical section. -/
def overlapTrace : List (Bool × Ev) :=
  [(false, .acquire), (false, .getAllEmbeddings), (true, .getAllEmbeddings),
   (false, .createItem), (false, .storeEmbedding), (false, .release),
   (true, .updateItem 0)]


/-- Embedding data for two items; at N = 2 the projection does not inspect
the vectors, so placeholder values suffice. -/
def embData2 : List (ℕ × PyVal) := [(0, PyVal.null), (1, PyVal.null)]

/-- The serial schedule: all of the first insert's events, then all of the
second's. -/
def serialTrace : List (Bool × Ev) :=
  insertEvents.map (fun e => (false, e)) ++ insertEvents.map (fun e => (true, e))

/-! ## Helper lemmas -/

theorem enumMap_length (f : ℕ → α → β) (i : ℕ) (l : List α) :
    (enumMap f i l).length = l.length := by
  induction l generalizing i with
  | nil => rfl
  | cons x xs ih => simp [enumMap, ih]

theorem circleFallback_length (n : ℕ) : (circleFallback n).length = n := by
  rw [circleFallback, List.length_map, List.length_range]

/-- Every branch of `compute_2d_positions` yields one output point per input
vector, provided the reducer oracle keeps the library's one-row-per-sample
guarantee. -/
theorem compute_2d_positions_length (reduce : Reducer) (randn : ℕ → F × F)
    (embeddings : List PyVal)
    (hred : ∀ n l r, reduce n l = some r → r.length = l.length) :
    (compute_2d_positions reduce randn embeddings).length = embeddings.length := by
  unfold compute_2d_positions
  by_cases h2 : embeddings.length < 2
  · by_cases h1 : embeddings.length = 1
    · simp [h2, h1]
    · simp [h2, h1]; omega
  · by_cases h3 : embeddings.length = 2
    · simp [h2, h3]
    · simp only [if_neg h2, if_neg h3]
      cases hr : reduce (min (max 2 (embeddings.length - 1)) UMAP_N_NEIGHBORS) embeddings with
      | none => simp [circleFallback_length]
      | some emb2d =>
        have hlen := hred _ _ _ hr
        simp only []
        split
        · rw [enumMap_length]; simpa using hlen
        · rw [List.length_map]; simpa using hlen

/-- Index-wise behaviour of `enumMap`: the i-th output is the function
applied at index `k + i` to the i-th input. -/
theorem enumMap_getElem? (f : ℕ → α → β) (k i : ℕ) (l : List α) :
    (enumMap f k l)[i]? = (l[i]?).map (fun x => f (k + i) x) := by
  induction l generalizing k i with
  | nil => simp [enumMap]
  | cons x xs ih =>
    cases i with
    | zero => simp [enumMap]
    | succ j =>
      have harith : k + 1 + j = k + (j + 1) := by omega
      simp [enumMap, ih (k + 1) j, harith]

/-- The i-th point of the circle fallback sits at angle `2πi/n`. -/
theorem circleFallback_getElem? (n i : ℕ) (h : i < n) :
    (circleFallback n)[i]?
      = some (F.fin ((Q.ofInt 600).mul (cosQ ((twoPi.mul (Q.ofInt (i : ℤ))).div (Q.ofInt (n : ℤ))))),
              F.fin ((Q.ofInt 600).mul (sinQ ((twoPi.mul (Q.ofInt (i : ℤ))).div (Q.ofInt (n : ℤ)))))) := by
  unfold circleFallback
  rw [List.getElem?_map, List.getElem?_range h]
  rfl

/-! ## Claim theorems -/

/-- C1: for every input list of N embedding vectors, `compute_2d_positions`
returns a list of exactly N 2-D positions, and the i-th output position
corresponds to the i-th input vector, in every branch: explicitly for
N = 0, 1, 2; for the failure fallback the i-th output is the circle point at
angle `2πi/N`; for the jitter branch the i-th output is the i-th reducer row
plus the i-th jitter draw; for the rescale branch the i-th output is the
recentred-and-rescaled i-th reducer row — and the reducer's i-th row is the
reduction of the i-th input vector by the library's contract, whose
one-row-per-sample part is the hypothesis `hred`. -/
theorem c1_project_preserves_length_and_order (reduce : Reducer) (randn : ℕ → F × F)
    (embeddings : List PyVal)
    (hred : ∀ n l r, reduce n l = some r → r.length = l.length) :
    (compute_2d_positions reduce randn embeddings).length = embeddings.length
    ∧ (embeddings.length = 0 → compute_2d_positions reduce randn embeddings = [])
    ∧ (embeddings.length = 1 →
        compute_2d_positions reduce randn embeddings = [(F.int 0, F.int 0)])
    ∧ (embeddings.length = 2 →
        compute_2d_positions reduce randn embeddings
          = [(F.int (-500), F.int 0), (F.int 500, F.int 0)])
    ∧ (3 ≤ embeddings.length →
        reduce (min (max 2 (embeddings.length - 1)) UMAP_N_NEIGHBORS) embeddings = none →
        ∀ i : ℕ, i < embeddings.length →
        (compute_2d_positions reduce randn embeddings)[i]?
          = some (F.fin ((Q.ofInt 600).mul (cosQ ((twoPi.mul (Q.ofInt (i : ℤ))).div
                    (Q.ofInt (embeddings.length : ℤ))))),
                  F.fin ((Q.ofInt 600).mul (sinQ ((twoPi.mul (Q.ofInt (i : ℤ))).div
                    (Q.ofInt (embeddings.length : ℤ)))))))
    ∧ (∀ emb2d, 3 ≤ embeddings.length →
        reduce (min (max 2 (embeddings.length - 1)) UMAP_N_NEIGHBORS) embeddings = some emb2d →
        ((fstd (emb2d.map Prod.fst)).lt eps6 || (fstd (emb2d.map Prod.snd)).lt eps6) = true →
        ∀ i : ℕ, (compute_2d_positions reduce randn embeddings)[i]?
          = (emb2d[i]?).map (fun p =>
              (p.1.add ((randn i).1.mul (F.int 200)), p.2.add ((randn i).2.mul (F.int 200)))))
    ∧ (∀ emb2d, 3 ≤ embeddings.length →
        reduce (min (max 2 (embeddings.length - 1)) UMAP_N_NEIGHBORS) embeddings = some emb2d →
        ((fstd (emb2d.map Prod.fst)).lt eps6 || (fstd (emb2d.map Prod.snd)).lt eps6) = false →
        ∀ i : ℕ, (compute_2d_positions reduce randn embeddings)[i]?
          = (emb2d[i]?).map (fun p =>
              (((p.1.sub (fmean (emb2d.map Prod.fst))).div
                  ((fstd (emb2d.map Prod.fst)).add eps8)).mul (F.int 1000),
               ((p.2.sub (fmean (emb2d.map Prod.snd))).div
                  ((fstd (emb2d.map Prod.snd)).add eps8)).mul (F.int 1000)))) := by
  refine ⟨compute_2d_positions_length reduce randn embeddings hred, ?_, ?_, ?_, ?_, ?_, ?_⟩
  · intro h0
    rw [List.length_eq_zero.mp h0]
    rfl
  · intro h1
    obtain ⟨v, rfl⟩ := List.length_eq_one.mp h1
    rfl
  · intro h2
    obtain ⟨v, w, rfl⟩ := List.length_eq_two.mp h2
    rfl
  · intro h3 hr i hi
    have hcirc : compute_2d_positions reduce randn embeddings
        = circleFallback embeddings.length := by
      unfold compute_2d_positions
      have ha : ¬ embeddings.length < 2 := by omega
      have hb : ¬ embeddings.length = 2 := by omega
      simp [ha, hb, hr]
    rw [hcirc, circleFallback_getElem? _ _ hi]
  · intro emb2d h3 hr hcond i
    unfold compute_2d_positions
    have ha : ¬ embeddings.length < 2 := by omega
    have hb : ¬ embeddings.length = 2 := by omega
    simp only [if_neg ha, if_neg hb, hr]
    simp only [hcond]
    rw [if_pos trivial, enumMap_getElem?]
    simp
  · intro emb2d h3 hr hcond i
    unfold compute_2d_positions
    have ha : ¬ embeddings.length < 2 := by omega
    have hb : ¬ embeddings.length = 2 := by omega
    simp only [if_neg ha, if_neg hb, hr]
    simp only [hcond]
    rw [if_neg (by simp), List.getElem?_map]

/-- C1 witness: three identical vectors with the collapsing reducer yield
exactly three positions; position 1 of the jitter branch is row 1 of the
reducer output plus the draw at index 1 (evaluating to `(0, 0)` for the
all-zero stream); and position 0 of the failure fallback is the circle point
at angle 0, `(600, 0)`. -/
theorem c1_witness :
    (compute_2d_positions reduceCollapse randn0 emb3).length = emb3.length
    ∧ (compute_2d_positions reduceCollapse randn0 emb3)[1]? = some (F.int 0, F.int 0)
    ∧ (compute_2d_positions reduceNone randn0 emb3)[0]? = some (F.int 600, F.int 0) :=
  ⟨(c1_project_preserves_length_and_order reduceCollapse randn0 emb3
      (fun _ l r h => by cases h; exact (List.length_map l _))).1,
   ((c1_project_preserves_length_and_order reduceCollapse randn0 emb3
      (fun _ l r h => by cases h; exact (List.length_map l _))).2.2.2.2.2.1
      (emb3.map (fun _ => (F.int 0, F.int 0))) (by decide) rfl (by decide) 1).trans (by decide),
   ((c1_project_preserves_length_and_order reduceNone randn0 emb3
      (fun _ _ _ h => by cases h)).2.2.2.2.1 (by decide) rfl 0 (by decide)).trans (by decide)⟩

/-- C2: in the insert path, the list handed to the projection is the
filtered snapshot followed by the new vector (existing items first, new item
last), the projection runs on those M+1 vectors, and the last element of the
returned position list is the one persisted as the new item's `(x, y)` —
shown both on the critical-section computation and on the store state left
by a failure-free `upload_media`. -/
theorem c2_insert_persists_last_position (reduce : Reducer) (randn : ℕ → F × F)
    (stored : List PyVal) (newEmb : List Q) :
    (insertCritical reduce randn stored newEmb).projInput
      = stored.filter (isValidEmb newEmb.length) ++ [PyVal.list (newEmb.map PyVal.num)]
    ∧ (insertCritical reduce randn stored newEmb).positions
      = compute_2d_positions reduce randn
          (stored.filter (isValidEmb newEmb.length) ++ [PyVal.list (newEmb.map PyVal.num)])
    ∧ (insertCritical reduce randn stored newEmb).persisted
      = ((insertCritical reduce randn stored newEmb).positions).getLast?
    ∧ ∀ (s : Store) (fileName : ℕ) (p : F × F),
        (insertCritical reduce randn (s.embeddings.map Prod.snd) newEmb).persisted = some p →
        (uploadFlow reduce randn false false false s newEmb fileName).store.items
          = s.items ++ [(s.items.length, p)] := by
  refine ⟨rfl, rfl, rfl, ?_⟩
  intro s fileName p hp
  simp [uploadFlow, hp]

/-- C2 witness: inserting the first item into an empty store persists the
single computed position `(0, 0)` as the new item's coordinates. -/
theorem c2_witness :
    (uploadFlow reduceNone randn0 false false false emptyStore [Q.ofInt 1] 7).store.items
      = emptyStore.items ++ [(emptyStore.items.length, (F.int 0, F.int 0))] :=
  (c2_insert_persists_last_position reduceNone randn0 [] [Q.ofInt 1]).2.2.2
    emptyStore 7 (F.int 0, F.int 0) rfl

/-- C3: for at most two inputs the projection returns the fixed small-N
outputs regardless of the vectors' contents: `[]` for the empty input,
`[(0, 0)]` for one vector, and `[(-500, 0), (500, 0)]` for exactly two. -/
theorem c3_small_inputs (reduce : Reducer) (randn : ℕ → F × F) :
    compute_2d_positions reduce randn [] = []
    ∧ (∀ v, compute_2d_positions reduce randn [v] = [(F.int 0, F.int 0)])
    ∧ (∀ v w, compute_2d_positions reduce randn [v, w]
        = [(F.int (-500), F.int 0), (F.int 500, F.int 0)]) :=
  ⟨rfl, fun _ => rfl, fun _ _ => rfl⟩

/-- C4 counterexample: when the reducer *returns* (rather than raises) rows
containing a non-finite value, the code does not fall back to the circle
layout — there is no finiteness check, and a NaN standard deviation makes
`std < 1e-6` false — so a non-finite coordinate reaches the caller.  On
three inputs with reducer output `[(nan, 0), (0, 0), (0, 0)]` the result
contains NaN and differs from the circle fallback, refuting the claim that
non-finite reduction output is always replaced by the circle layout and that
no non-finite coordinate reaches the caller. -/
theorem c4_counterexample :
    nanRows.any (fun p => p.1.isNaN || p.2.isNaN) = true
    ∧ (compute_2d_positions reduceNaN randn0 emb3).any (fun p => p.1.isNaN || p.2.isNaN) = true
    ∧ (circleFallback emb3.length).any (fun p => p.1.isNaN || p.2.isNaN) = false
    ∧ compute_2d_positions reduceNaN randn0 emb3 ≠ circleFallback emb3.length := by
  refine ⟨by decide, by decide, by decide, by decide⟩

/-- C4 (amended): for N ≥ 3, whenever the dimensionality reduction *raises*,
the output is the N points placed evenly on a circle of radius 600
(`position_i = (600·cos(2πi/N), 600·sin(2πi/N))`), so no exception
propagates; non-finite values in a successfully returned reduction output
are, however, not detected and flow through to the caller. -/
theorem c4_amended_fallback_on_raise (reduce : Reducer) (randn : ℕ → F × F)
    (embeddings : List PyVal) (h3 : 3 ≤ embeddings.length)
    (hr : reduce (min (max 2 (embeddings.length - 1)) UMAP_N_NEIGHBORS) embeddings = none) :
    compute_2d_positions reduce randn embeddings = circleFallback embeddings.length := by
  unfold compute_2d_positions
  have h2 : ¬ embeddings.length < 2 := by omega
  have h2' : ¬ embeddings.length = 2 := by omega
  simp [h2, h2', hr]

/-- C4 amended witness: a raising reducer on three vectors produces the
three-point circle layout. -/
theorem c4_amended_witness :
    compute_2d_positions reduceNone randn0 emb3 = circleFallback emb3.length :=
  c4_amended_fallback_on_raise reduceNone randn0 emb3 (by decide) rfl

/-- C5 counterexample: the jitter branch is not a deterministic function of
the input.  On three identical vectors (reducer output collapsed, so the
jitter branch fires) the result depends on the draws of NumPy's global
generator, which `random_state=42` does not seed: two calls whose RNG
streams differ — as they do within one process, since the global state
advances — return different outputs for identical input. -/
theorem c5_counterexample :
    jitterBranch reduceCollapse emb3 = true
    ∧ compute_2d_positions reduceCollapse randn0 emb3
        ≠ compute_2d_positions reduceCollapse randn1 emb3 := by
  refine ⟨by decide, by decide⟩

/-- C5 (amended): every branch except the degenerate-geometry jitter branch
is a deterministic function of the input: whenever the jitter branch is not
reached, the output is independent of the global RNG stream. -/
theorem c5_amended_deterministic_off_jitter (reduce : Reducer)
    (embeddings : List PyVal) (h : jitterBranch reduce embeddings = false)
    (randn₁ randn₂ : ℕ → F × F) :
    compute_2d_positions reduce randn₁ embeddings
      = compute_2d_positions reduce randn₂ embeddings := by
  unfold compute_2d_positions
  unfold jitterBranch at h
  by_cases h2 : embeddings.length < 2
  · simp [h2]
  · by_cases h3 : embeddings.length = 2
    · simp [h2, h3]
    · simp only [if_neg h2, if_neg h3] at h ⊢
      cases hr : reduce (min (max 2 (embeddings.length - 1)) UMAP_N_NEIGHBORS) embeddings with
      | none => simp [hr]
      | some emb2d =>
        rw [hr] at h
        simp only [] at h
        simp [hr, h]

/-- C5 amended witness: on a two-vector input (fixed-pair branch, no
jitter) two different RNG streams give identical output. -/
theorem c5_amended_witness :
    compute_2d_positions reduceCollapse randn0 [PyVal.null, PyVal.null]
      = compute_2d_positions reduceCollapse randn1 [PyVal.null, PyVal.null] :=
  c5_amended_deterministic_off_jitter reduceCollapse [PyVal.null, PyVal.null]
    (by decide) randn0 randn1

/-- C6 counterexample: on a scope with exactly one stored embedding,
`recompute_positions` answers "Not enough items" instead of the count 1 and
performs no position update, refuting the claim that the operation returns K
and overwrites all K positions for *every* K. -/
theorem c6_counterexample :
    (recompute_positions reduceNone randn0 [(0, PyVal.list [PyVal.num (Q.ofInt 1)])]).1
      ≠ RecomputeOutcome.recomputed 1
    ∧ (recompute_positions reduceNone randn0 [(0, PyVal.list [PyVal.num (Q.ofInt 1)])]).2
      = [] := by
  refine ⟨by decide, rfl⟩

/-- C6 (amended): for every scope holding K ≥ 2 items with stored
embeddings, `recompute_positions` reports the count K and performs a
position update for every one of the K item ids, in order; for K < 2 it
bails out with "Not enough items" and updates nothing. -/
theorem c6_amended_recompute_above_two (reduce : Reducer) (randn : ℕ → F × F)
    (embData : List (ℕ × PyVal)) (hK : 2 ≤ embData.length)
    (hred : ∀ n l r, reduce n l = some r → r.length = l.length) :
    (recompute_positions reduce randn embData).1
      = RecomputeOutcome.recomputed embData.length
    ∧ ((recompute_positions reduce randn embData).2).map Prod.fst = embData.map Prod.fst
    ∧ ((recompute_positions reduce randn embData).2).length = embData.length := by
  have hnl : ¬ embData.length < 2 := by omega
  have hpos : (compute_2d_positions reduce randn (embData.map Prod.snd)).length
      = embData.length := by
    rw [compute_2d_positions_length _ _ _ hred, List.length_map]
  unfold recompute_positions
  simp only [if_neg hnl]
  refine ⟨by rw [List.length_map], ?_, ?_⟩
  · rw [List.map_fst_zip]
    rw [List.length_map, hpos]
  · rw [List.length_zip, List.length_map, hpos]
    simp

/-- C6 amended witness: with two stored embeddings the operation reports
count 2 and updates exactly the two item ids. -/
theorem c6_amended_witness :
    (recompute_positions reduceNone randn0 embData2).1 = RecomputeOutcome.recomputed 2
    ∧ ((recompute_positions reduceNone randn0 embData2).2).map Prod.fst = [0, 1] := by
  have h := c6_amended_recompute_above_two reduceNone randn0 embData2 (by decide)
    (fun _ _ _ hh => by cases hh)
  exact ⟨h.1, by rw [h.2.1]; rfl⟩

/-- C7 counterexample: the insert filter checks only `isinstance(emb, list)`
and the outer length, not that the entries are numbers.  A stored vector of
the expected outer length 2 whose entries are themselves lists — not a flat
numeric list — passes the filter and is included in the projection input,
refuting the claim that every vector whose shape is not a flat numeric list
is excluded. -/
theorem c7_counterexample :
    specFlatNumericOfDim 2 nestedVec = false
    ∧ isValidEmb 2 nestedVec = true
    ∧ (insertCritical reduceNone randn0 [nestedVec] [Q.ofInt 1, Q.ofInt 0]).projInput
      = [nestedVec, PyVal.list [PyVal.num (Q.ofInt 1), PyVal.num (Q.ofInt 0)]] :=
  ⟨rfl, rfl, rfl⟩

/-- C7 (amended): during an insert, exactly those stored vectors that are
not Python lists of the new vector's length are excluded from the projection
input (element contents are not inspected), the exclusion is non-fatal, and
no stored embedding is deleted or modified by any outcome of the insert (the
prior embedding rows survive unchanged as a prefix of the final store). -/
theorem c7_amended_filter_excludes_without_deleting (reduce : Reducer) (randn : ℕ → F × F)
    (stored : List PyVal) (newEmb : List Q) (s : Store)
    (fUpload fCreate fEmbed : Bool) (fileName : ℕ) :
    (insertCritical reduce randn stored newEmb).projInput
      = stored.filter (isValidEmb newEmb.length) ++ [PyVal.list (newEmb.map PyVal.num)]
    ∧ (∀ e ∈ stored, isValidEmb newEmb.length e = false →
        e ∉ (insertCritical reduce randn stored newEmb).projInput)
    ∧ ((uploadFlow reduce randn fUpload fCreate fEmbed s newEmb fileName).store.embeddings).take
        s.embeddings.length = s.embeddings := by
  refine ⟨rfl, ?_, ?_⟩
  · intro e he hbad hmem
    rcases List.mem_append.mp hmem with h | h
    · have hv := (List.mem_filter.mp h).2
      rw [hbad] at hv
      cases hv
    · have he2 : e = PyVal.list (newEmb.map PyVal.num) := by simpa using h
      subst he2
      have hv : isValidEmb newEmb.length (PyVal.list (newEmb.map PyVal.num)) = true := by
        simp [isValidEmb, PyVal.isList, PyVal.pyLen]
      rw [hbad] at hv
      cases hv
  · cases fUpload with
    | true => simp [uploadFlow]
    | false =>
      cases hp : (insertCritical reduce randn (s.embeddings.map Prod.snd) newEmb).persisted with
      | none => simp [uploadFlow, hp]
      | some p =>
        cases fCreate with
        | true => simp [uploadFlow, hp]
        | false =>
          cases fEmbed with
          | true => simp [uploadFlow, hp]
          | false => simp [uploadFlow, hp, List.take_left]

/-- C7 witness: a stored non-list value is excluded from the projection
input of a concrete insert. -/
theorem c7_witness :
    PyVal.null ∉ (insertCritical reduceNone randn0 [PyVal.null] [Q.ofInt 1]).projInput :=
  (c7_amended_filter_excludes_without_deleting reduceNone randn0 [PyVal.null] [Q.ofInt 1]
      emptyStore false false false 7).2.1 PyVal.null (by simp) rfl

/-- C8 counterexample: when `store_embedding` fails after `create_item`
succeeded, the insert reports an error yet the item row with its position
has been persisted — partial persistence, refuting the claim that a store
failure during insert leaves nothing behind. -/
theorem c8_counterexample :
    (uploadFlow reduceNone randn0 false false true emptyStore [Q.ofInt 1] 7).outcome
      = UploadOutcome.error
    ∧ (uploadFlow reduceNone randn0 false false true emptyStore [Q.ofInt 1] 7).store.items
      = [(0, (F.int 0, F.int 0))]
    ∧ emptyStore.items = [] :=
  ⟨rfl, rfl, rfl⟩

/-- C8 (amended): a failure of the storage upload or of `create_item` makes
the whole insert fail with nothing persisted (an already-uploaded storage
file is removed again); but when `store_embedding` fails after `create_item`
succeeded, the error still propagates and the storage file is removed, while
the already-created item row with its persisted position remains — the
insert is not atomic in that case. -/
theorem c8_amended_partial_persistence (reduce : Reducer) (randn : ℕ → F × F)
    (s : Store) (newEmb : List Q) (fileName : ℕ) (hf : fileName ∉ s.files) :
    (∀ fCreate fEmbed, uploadFlow reduce randn true fCreate fEmbed s newEmb fileName
      = { outcome := .error, store := s })
    ∧ (∀ p fEmbed,
        (insertCritical reduce randn (s.embeddings.map Prod.snd) newEmb).persisted = some p →
        uploadFlow reduce randn false true fEmbed s newEmb fileName
          = { outcome := .error, store := s })
    ∧ (∀ p,
        (insertCritical reduce randn (s.embeddings.map Prod.snd) newEmb).persisted = some p →
        uploadFlow reduce randn false false true s newEmb fileName
          = { outcome := .error,
              store := { files := s.files, items := s.items ++ [(s.items.length, p)],
                         embeddings := s.embeddings } }) := by
  have hkeep : s.files.filter (fun f => !decide (f = fileName)) = s.files := by
    apply List.filter_eq_self.mpr
    intro a ha
    simp only [Bool.not_eq_true', decide_eq_false_iff_not]
    exact fun hEq => hf (hEq ▸ ha)
  refine ⟨fun _ _ => rfl, ?_, ?_⟩
  · intro p fEmbed hp
    simp [uploadFlow, hp, hkeep]
  · intro p hp
    simp [uploadFlow, hp, hkeep]

/-- C8 amended witness: on an empty store, an embedding-persistence failure
leaves exactly one orphan item row behind and no file and no embedding. -/
theorem c8_amended_witness :
    uploadFlow reduceNone randn0 false false true emptyStore [Q.ofInt 1] 7
      = { outcome := .error,
          store := { files := [], items := [(0, (F.int 0, F.int 0))], embeddings := [] } } :=
  (c8_amended_partial_persistence reduceNone randn0 emptyStore [Q.ofInt 1] 7 (by decide)).2.2
    (F.int 0, F.int 0) rfl

/-- C9 counterexample: `recompute_positions` performs no lock acquisition,
and there is an admissible schedule — obeying the `asyncio.Lock` discipline
— in which the recompute's snapshot read falls strictly inside an insert's
snapshot-through-persistence span, refuting the claim that the recompute
acquires the same exclusive section and that an insert and a recompute can
never interleave. -/
theorem c9_counterexample :
    overlapTrace ∈ schedules insertEvents (recomputeEvents 1)
    ∧ lockOk none overlapTrace = true
    ∧ spansSeparated overlapTrace = false
    ∧ (recomputeEvents 1).contains Ev.acquire = false := by
  refine ⟨by decide, by decide, by decide, by decide⟩

set_option maxRecDepth 100000 in
/-- C9 (amended): at most one insert-path operation is in flight at a time —
in every admissible schedule of two concurrent inserts the two
snapshot-through-persistence spans do not interleave, because both inserts
wrap them in the process-wide `upload_lock` — but `recompute_positions`
never acquires that lock. -/
theorem c9_amended_insert_mutual_exclusion :
    (∀ t ∈ schedules insertEvents insertEvents,
      lockOk none t = true → spansSeparated t = true)
    ∧ (∀ k, Ev.acquire ∉ recomputeEvents k) := by
  constructor
  · decide
  · intro k h
    simp [recomputeEvents] at h

set_option maxRecDepth 100000 in
/-- C9 amended witness: the serial schedule of two inserts is admissible and
keeps the spans separated. -/
theorem c9_amended_witness :
    spansSeparated serialTrace = true ∧ Ev.acquire ∉ recomputeEvents 1 :=
  ⟨c9_amended_insert_mutual_exclusion.1 serialTrace (by decide) (by decide),
   c9_amended_insert_mutual_exclusion.2 1⟩

/-- C10: in every insert the list handed to the projection is non-empty (the
new embedding is appended unconditionally), the projection returns a
non-empty result for it, so taking `positions[-1]` never fails; and when
every stored vector is filtered out the persisted position is `(0, 0)` via
the N = 1 branch.  The hypothesis is the reducer's one-row-per-sample
guarantee. -/
theorem c10_last_position_always_exists (reduce : Reducer) (randn : ℕ → F × F)
    (stored : List PyVal) (newEmb : List Q)
    (hred : ∀ n l r, reduce n l = some r → r.length = l.length) :
    (insertCritical reduce randn stored newEmb).projInput ≠ []
    ∧ (insertCritical reduce randn stored newEmb).positions ≠ []
    ∧ (insertCritical reduce randn stored newEmb).persisted.isSome = true
    ∧ (stored.filter (isValidEmb newEmb.length) = [] →
        (insertCritical reduce randn stored newEmb).persisted = some (F.int 0, F.int 0)) := by
  have hlen : (insertCritical reduce randn stored newEmb).positions.length
      = (stored.filter (isValidEmb newEmb.length)).length + 1 := by
    show (compute_2d_positions reduce randn _).length = _
    rw [compute_2d_positions_length reduce randn _ hred]
    simp [insertCritical]
  have hne : (insertCritical reduce randn stored newEmb).positions ≠ [] := by
    intro h
    rw [h] at hlen
    simp at hlen
  refine ⟨by simp [insertCritical], hne, ?_, ?_⟩
  · have hp : (insertCritical reduce randn stored newEmb).persisted
        = ((insertCritical reduce randn stored newEmb).positions).getLast? := rfl
    rw [hp, List.getLast?_isSome]
    exact hne
  · intro hf
    simp [insertCritical, hf]
    rfl

/-- C10 witness: inserting into an empty snapshot yields the persisted
position `(0, 0)` and a non-empty position list. -/
theorem c10_witness :
    (insertCritical reduceNone randn0 [] [Q.ofInt 1]).persisted = some (F.int 0, F.int 0)
    ∧ (insertCritical reduceNone randn0 [] [Q.ofInt 1]).positions ≠ [] :=
  ⟨(c10_last_position_always_exists reduceNone randn0 [] [Q.ofInt 1]
      (fun _ _ _ h => by cases h)).2.2.2 rfl,
   (c10_last_position_always_exists reduceNone randn0 [] [Q.ofInt 1]
      (fun _ _ _ h => by cases h)).2.1⟩

end ReactionSpace
